import Mathlib

/-!
Verification of the job-transition engine of a field-service management
backend. The definitions below are a shallow embedding of the JavaScript
source: `src/config/constants.js` (roles, statuses, transition table),
`src/services/JobService.js` (validateTransition, createJob,
transitionStatus, assignTechnician, updateJobDetails) and
`src/routes/jobs.js` (the reassign, edit and delete routes).

Mongo documents become Lean structures; the per-job store content is an
`Option Job` (`none` = absent); `findOneAndUpdate` with a status filter
becomes an explicit conditional-write step on that store; actor and
technician ids are `Nat`; dates are `Nat` ticks supplied by the caller.
-/

/-- User roles (`ROLES` in constants.js). -/
inductive Role where
  | ADMIN
  | OFFICE_MANAGER
  | TECHNICIAN
deriving DecidableEq, Repr, Fintype

/-- Job statuses (`JOB_STATUS` in constants.js). -/
inductive Status where
  | TENTATIVE
  | CONFIRMED
  | ASSIGNED
  | DISPATCHED
  | IN_PROGRESS
  | COMPLETED
  | BILLED
deriving DecidableEq, Repr, Fintype

def Role.toStr : Role → String
  | .ADMIN => "ADMIN"
  | .OFFICE_MANAGER => "OFFICE_MANAGER"
  | .TECHNICIAN => "TECHNICIAN"

def Status.toStr : Status → String
  | .TENTATIVE => "TENTATIVE"
  | .CONFIRMED => "CONFIRMED"
  | .ASSIGNED => "ASSIGNED"
  | .DISPATCHED => "DISPATCHED"
  | .IN_PROGRESS => "IN_PROGRESS"
  | .COMPLETED => "COMPLETED"
  | .BILLED => "BILLED"

/-- `STATUS_TRANSITIONS` in constants.js: current status to the list of
(next status, allowed roles) entries, in source order. `BILLED` maps to
the empty object (terminal state). -/
def STATUS_TRANSITIONS : Status → List (Status × List Role)
  | .TENTATIVE => [(.CONFIRMED, [.ADMIN])]
  | .CONFIRMED => [(.ASSIGNED, [.ADMIN])]
  | .ASSIGNED => [(.DISPATCHED, [.OFFICE_MANAGER])]
  | .DISPATCHED => [(.IN_PROGRESS, [.TECHNICIAN])]
  | .IN_PROGRESS => [(.COMPLETED, [.TECHNICIAN])]
  | .COMPLETED => [(.BILLED, [.OFFICE_MANAGER])]
  | .BILLED => []

/-- `validateTransition(currentStatus, newStatus, role)` from
JobService.js: returns `some errorMessage` on a violation, `none` when
the move is legal. Pure, no I/O, exactly mirroring the source's three
checks in order. -/
def validateTransition (currentStatus newStatus : Status) (role : Role) : Option String :=
  if currentStatus = newStatus then
    some "Job is already in this status"
  else
    let allowed := STATUS_TRANSITIONS currentStatus
    match allowed.lookup newStatus with
    | none =>
        let valid := allowed.map (fun p => p.1)
        some ("Invalid transition from " ++ currentStatus.toStr ++ " to " ++ newStatus.toStr
          ++ ". Valid: "
          ++ (if valid.isEmpty then "none (terminal state)"
              else String.intercalate ", " (valid.map Status.toStr)))
    | some roles =>
        if roles.contains role then none
        else
          some ("Role " ++ role.toStr ++ " cannot move job from " ++ currentStatus.toStr
            ++ " to " ++ newStatus.toStr ++ ". Allowed: "
            ++ String.intercalate ", " (roles.map Role.toStr))

/-- Modelled from the spec: the authoritative transition table of
section 4.1, written independently of `STATUS_TRANSITIONS` so the code's
policy can be compared against it. -/
def spec41Allowed : Status → Status → Option (List Role)
  | .TENTATIVE, .CONFIRMED => some [.ADMIN]
  | .CONFIRMED, .ASSIGNED => some [.ADMIN]
  | .ASSIGNED, .DISPATCHED => some [.OFFICE_MANAGER]
  | .DISPATCHED, .IN_PROGRESS => some [.TECHNICIAN]
  | .IN_PROGRESS, .COMPLETED => some [.TECHNICIAN]
  | .COMPLETED, .BILLED => some [.OFFICE_MANAGER]
  | _, _ => none

/-- All statuses in lifecycle order, used to enumerate the spec table's
valid targets for a given current status. -/
def allStatuses : List Status :=
  [.TENTATIVE, .CONFIRMED, .ASSIGNED, .DISPATCHED, .IN_PROGRESS, .COMPLETED, .BILLED]

/-- Valid targets for a current status according to the section-4.1
table. -/
def spec41Targets (cs : Status) : List Status :=
  allStatuses.filter (fun t => (spec41Allowed cs t).isSome)

/-- The error message the spec expects for an off-table target: the
valid target set is enumerated, or "none (terminal state)" when the
current status has no outgoing transition. -/
def spec41OffTableMsg (cs ns : Status) : String :=
  "Invalid transition from " ++ cs.toStr ++ " to " ++ ns.toStr ++ ". Valid: "
    ++ (if (spec41Targets cs).isEmpty then "none (terminal state)"
        else String.intercalate ", " ((spec41Targets cs).map Status.toStr))

/-- The error message the spec expects when the pair is in the table but
the role is not in its allowed set: the required role set is named. -/
def spec41RoleMsg (cs ns : Status) (r : Role) : String :=
  "Role " ++ r.toStr ++ " cannot move job from " ++ cs.toStr ++ " to " ++ ns.toStr
    ++ ". Allowed: "
    ++ String.intercalate ", " (((spec41Allowed cs ns).getD []).map Role.toStr)

/-- One record of a job's `statusHistory` (the statusHistorySchema of
the Job model): `fromStatus` is null only on the creation record. -/
structure HistoryRecord where
  fromStatus : Option Status
  toStatus : Status
  changedBy : Nat
  changedAt : Nat
  notes : String
deriving DecidableEq, Repr

/-- A job document (the jobSchema of the Job model). Descriptive fields
are kept as plain values; references are `Nat` ids; optional dates are
`Option Nat`. -/
structure Job where
  title : String
  description : String
  customerName : String
  customerPhone : String
  customerEmail : String
  address : String
  scheduledDate : Option Nat
  status : Status
  assignedTechnician : Option Nat
  createdBy : Nat
  statusHistory : List HistoryRecord
  estimatedCost : Option Nat
  actualCost : Option Nat
  completedAt : Option Nat
  billedAt : Option Nat
  notes : String
deriving DecidableEq, Repr

/-- The acting user as seen by the service layer (`req.user`): id and
role. -/
structure Actor where
  id : Nat
  role : Role
deriving DecidableEq, Repr

instance {e a : Type} [DecidableEq e] [DecidableEq a] : DecidableEq (Except e a)
  | .error x, .error y =>
    if h : x = y then isTrue (congrArg Except.error h)
    else isFalse (fun hc => h (Except.error.inj hc))
  | .error _, .ok _ => isFalse Except.noConfusion
  | .ok _, .error _ => isFalse Except.noConfusion
  | .ok x, .ok y =>
    if h : x = y then isTrue (congrArg Except.ok h)
    else isFalse (fun hc => h (Except.ok.inj hc))

/-- Outcome of a service call: the JS functions return either
`{ data: job }` or `{ error: message, status: httpCode }`. -/
inductive SvcResult where
  | ok : Job → SvcResult
  | err : String → Nat → SvcResult
deriving DecidableEq, Repr

def SvcResult.isOk : SvcResult → Bool
  | .ok _ => true
  | .err _ _ => false

/-- C2: `validateTransition` agrees with the section-4.1 table: it
returns no violation iff the (current, target) pair is a table pair and
the role is in its allowed set; a self-transition always fails with
"already in this status"; an off-table target fails with the valid
target set enumerated (or "none (terminal state)" for BILLED); a valid
target with a disallowed role fails naming the required role set. -/
theorem validateTransition_matches_spec_table :
    (∀ cs ns r, validateTransition cs ns r = none ↔
      (spec41Allowed cs ns).any (fun roles => roles.contains r) = true) ∧
    (∀ cs r, validateTransition cs cs r = some "Job is already in this status") ∧
    (∀ cs ns r, cs ≠ ns → spec41Allowed cs ns = none →
      validateTransition cs ns r = some (spec41OffTableMsg cs ns)) ∧
    (∀ cs ns r, (spec41Allowed cs ns).isSome →
      (spec41Allowed cs ns).any (fun roles => roles.contains r) = false →
      validateTransition cs ns r = some (spec41RoleMsg cs ns r)) := by
  refine ⟨by decide, by decide, by decide, by decide⟩

/-- C2 witness: concrete instances of the conditional parts of the
theorem: BILLED is terminal, and a TECHNICIAN may not confirm. -/
theorem validateTransition_matches_spec_table_witness :
    validateTransition Status.BILLED Status.CONFIRMED Role.ADMIN
      = some (spec41OffTableMsg Status.BILLED Status.CONFIRMED) ∧
    validateTransition Status.TENTATIVE Status.CONFIRMED Role.TECHNICIAN
      = some (spec41RoleMsg Status.TENTATIVE Status.CONFIRMED Role.TECHNICIAN) :=
  ⟨validateTransition_matches_spec_table.2.2.1 Status.BILLED Status.CONFIRMED Role.ADMIN
      (by decide) (by decide),
   validateTransition_matches_spec_table.2.2.2 Status.TENTATIVE Status.CONFIRMED
      Role.TECHNICIAN (by decide) (by decide)⟩

/-- The caller-supplied fields of `createJob` (the subset of `req.body`
that the service copies into the new document). -/
structure JobData where
  title : String
  description : String
  customerName : String
  customerPhone : String
  customerEmail : String
  address : String
  scheduledDate : Option Nat
  estimatedCost : Option Nat
  notes : String
deriving DecidableEq, Repr

/-- `createJob(data, userId)` from JobService.js: a new job in
TENTATIVE with the single creation history record
`{fromStatus: null, toStatus: TENTATIVE, changedBy: userId,
notes: "Job created"}`. `now` stands for the schema's `Date.now`
default on `changedAt`. -/
def createJob (data : JobData) (userId : Nat) (now : Nat) : Job :=
  { title := data.title
    description := data.description
    customerName := data.customerName
    customerPhone := data.customerPhone
    customerEmail := data.customerEmail
    address := data.address
    scheduledDate := data.scheduledDate
    status := Status.TENTATIVE
    assignedTechnician := none
    createdBy := userId
    statusHistory := [{ fromStatus := none, toStatus := Status.TENTATIVE,
                        changedBy := userId, changedAt := now, notes := "Job created" }]
    estimatedCost := data.estimatedCost
    actualCost := none
    completedAt := none
    billedAt := none
    notes := data.notes }

/-- The JS blank test `!s || !s.trim()`: true exactly when the string
is empty or whitespace-only, i.e. every character is whitespace. -/
def isBlank (s : String) : Bool :=
  s.data.all (fun c => c.isWhitespace)

/-- The update document that `transitionStatus` hands to
`findOneAndUpdate`: the expected current status (the filter), the $set
fields and the $push-ed history entry. -/
structure PendingWrite where
  expected : Status
  newStatus : Status
  setCompletedAt : Option Nat
  setBilledAt : Option Nat
  entry : HistoryRecord
deriving DecidableEq, Repr

/-- Steps 1–4 of `transitionStatus` (JobService.js): validate the
transition and role against the snapshot, require notes when
dispatching, require the acting technician to be the assigned one, and
build the atomic update. The caller's absent `notes` is the empty
string (both are falsy in the source). -/
def prepareTransition (job : Job) (newStatus : Status) (user : Actor) (notes : String)
    (now : Nat) : Except (String × Nat) PendingWrite :=
  let currentStatus := job.status
  match validateTransition currentStatus newStatus user.role with
  | some e => Except.error (e, 400)
  | none =>
    if newStatus = Status.DISPATCHED ∧ isBlank notes = true then
      Except.error ("Notes are required when dispatching a job to a technician", 400)
    else if user.role = Role.TECHNICIAN
        ∧ (job.assignedTechnician = none ∨ job.assignedTechnician ≠ some user.id) then
      Except.error ("You are not assigned to this job", 403)
    else
      Except.ok
        { expected := currentStatus
          newStatus := newStatus
          setCompletedAt := if newStatus = Status.COMPLETED then some now else none
          setBilledAt := if newStatus = Status.BILLED then some now else none
          entry :=
            { fromStatus := some currentStatus
              toStatus := newStatus
              changedBy := user.id
              changedAt := now
              notes := if notes = "" then
                  "Status changed from " ++ currentStatus.toStr ++ " to " ++ newStatus.toStr
                else notes } }

/-- The effect of the update document on a matched job: $set the status
and the side-effect dates, $push the history entry. -/
def applyWrite (j : Job) (w : PendingWrite) : Job :=
  { j with
    status := w.newStatus
    completedAt := match w.setCompletedAt with | some t => some t | none => j.completedAt
    billedAt := match w.setBilledAt with | some t => some t | none => j.billedAt
    statusHistory := j.statusHistory ++ [w.entry] }

/-- `findOneAndUpdate({_id: jobId, status: expected}, ...)` as one
atomic step on the per-job store: first component is what the call
returns (`some updated` or `null`), second is the store afterwards. The
filter matches only when the job exists and its persisted status still
equals `expected`. -/
def attemptTransition (store : Option Job) (w : PendingWrite) : Option Job × Option Job :=
  match store with
  | none => (none, none)
  | some j =>
    if j.status = w.expected then
      (some (applyWrite j w), some (applyWrite j w))
    else
      (none, some j)

/-- `transitionStatus(jobId, newStatus, user, notes)` run against the
per-job store: load, validate against the snapshot, then the
conditional write; `null` from the write is reported as the 409
conflict error. Returns the service result and the store afterwards. -/
def transitionStatus (store : Option Job) (newStatus : Status) (user : Actor)
    (notes : String) (now : Nat) : SvcResult × Option Job :=
  match store with
  | none => (SvcResult.err "Job not found" 404, none)
  | some job =>
    match prepareTransition job newStatus user notes now with
    | Except.error (e, c) => (SvcResult.err e c, some job)
    | Except.ok w =>
      match attemptTransition (some job) w with
      | (some updated, store2) => (SvcResult.ok updated, store2)
      | (none, store2) =>
        (SvcResult.err
          "Conflict: job status was changed by another request. Please refresh and retry."
          409, store2)

/-- A user document as the job routes consume it: display name and
role. The directory itself is an id-keyed association list. -/
structure UserRec where
  name : String
  role : Role
deriving DecidableEq, Repr

abbrev UserDir := List (Nat × UserRec)

/-- `User.findById` against the directory. -/
def lookupUser (users : UserDir) (id : Nat) : Option UserRec :=
  users.lookup id

/-- `assignTechnician(jobId, technicianId, user, notes)` from
JobService.js: resolve the technician, validate CONFIRMED → ASSIGNED
for the caller's role, then the conditional write keyed on
`(jobId, CONFIRMED)`; when the write matches nothing, a read-only
lookup distinguishes a missing job from a status mismatch and the
mismatch diagnostic names the job's actual current status. -/
def assignTechnician (store : Option Job) (users : UserDir) (technicianId : Nat)
    (user : Actor) (notes : String) (now : Nat) : SvcResult × Option Job :=
  match lookupUser users technicianId with
  | none => (SvcResult.err "Technician not found" 404, store)
  | some tech =>
    if tech.role ≠ Role.TECHNICIAN then
      (SvcResult.err "User is not a technician" 400, store)
    else
      match validateTransition Status.CONFIRMED Status.ASSIGNED user.role with
      | some e => (SvcResult.err e 400, store)
      | none =>
        let entry : HistoryRecord :=
          { fromStatus := some Status.CONFIRMED
            toStatus := Status.ASSIGNED
            changedBy := user.id
            changedAt := now
            notes := if notes = "" then "Assigned to " ++ tech.name else notes }
        match store with
        | some j =>
          if j.status = Status.CONFIRMED then
            let updated :=
              { j with status := Status.ASSIGNED
                       assignedTechnician := some technicianId
                       statusHistory := j.statusHistory ++ [entry] }
            (SvcResult.ok updated, some updated)
          else
            (SvcResult.err ("Job must be CONFIRMED to assign. Current status: "
              ++ j.status.toStr) 400, some j)
        | none => (SvcResult.err "Job not found" 404, none)

/-- The fields a detail-edit request may carry (`req.body` of
PUT /api/jobs/:id): `some` means the field is present in the input.
The last four are present in the type precisely because the claims ask
what happens when a caller supplies them. -/
structure EditData where
  title : Option String
  description : Option String
  customerName : Option String
  customerPhone : Option String
  customerEmail : Option String
  address : Option String
  scheduledDate : Option Nat
  estimatedCost : Option Nat
  actualCost : Option Nat
  notes : Option String
  completedAt : Option Nat
  billedAt : Option Nat
  status : Option Status
  statusHistory : Option (List HistoryRecord)
  assignedTechnician : Option (Option Nat)
  createdBy : Option Nat
deriving DecidableEq, Repr

/-- The `$set` a detail edit performs after `updateJobDetails`
destructures away `status`, `statusHistory`, `assignedTechnician` and
`createdBy`: every remaining present field is written, the rest keep
their stored values. -/
def applyDetails (j : Job) (d : EditData) : Job :=
  { j with
    title := d.title.getD j.title
    description := d.description.getD j.description
    customerName := d.customerName.getD j.customerName
    customerPhone := d.customerPhone.getD j.customerPhone
    customerEmail := d.customerEmail.getD j.customerEmail
    address := d.address.getD j.address
    scheduledDate := match d.scheduledDate with | some v => some v | none => j.scheduledDate
    estimatedCost := match d.estimatedCost with | some v => some v | none => j.estimatedCost
    actualCost := match d.actualCost with | some v => some v | none => j.actualCost
    notes := d.notes.getD j.notes
    completedAt := match d.completedAt with | some v => some v | none => j.completedAt
    billedAt := match d.billedAt with | some v => some v | none => j.billedAt }

/-- `updateJobDetails(jobId, data)` from JobService.js:
`findByIdAndUpdate` with the stripped field set. -/
def updateJobDetails (store : Option Job) (d : EditData) : SvcResult × Option Job :=
  match store with
  | none => (SvcResult.err "Job not found" 404, none)
  | some j =>
    let updated := applyDetails j d
    (SvcResult.ok updated, some updated)

/-- PUT /api/jobs/:id (routes/jobs.js): refuse to edit a BILLED job,
otherwise delegate to `updateJobDetails` (also when the job is absent,
as the route's guard only fires when `existingJob` is non-null). -/
def putJob (store : Option Job) (d : EditData) : SvcResult × Option Job :=
  match store with
  | some j =>
    if j.status = Status.BILLED then
      (SvcResult.err "Billed jobs cannot be edited" 400, some j)
    else updateJobDetails store d
  | none => updateJobDetails store d

/-- Outcome of the delete route: a confirmation message or an error. -/
inductive DeleteResult where
  | ok : String → DeleteResult
  | err : String → Nat → DeleteResult
deriving DecidableEq, Repr

/-- DELETE /api/jobs/:id (routes/jobs.js): 404 when absent, refuse
BILLED jobs, otherwise `findByIdAndDelete`. -/
def deleteJob (store : Option Job) : DeleteResult × Option Job :=
  match store with
  | none => (DeleteResult.err "Job not found" 404, none)
  | some j =>
    if j.status = Status.BILLED then
      (DeleteResult.err "Billed jobs cannot be deleted" 400, some j)
    else
      (DeleteResult.ok ("Job \"" ++ j.title ++ "\" deleted"), none)

/-- The minimal update document that Mongoose `save()` sends for the
reassign route's in-memory modifications: `$set` of the two modified
scalar paths (`status`, always reset to ASSIGNED, and
`assignedTechnician`, the new id) plus `$push` of the one history
record appended in memory. -/
structure ReassignDelta where
  technicianId : Nat
  entry : HistoryRecord
deriving DecidableEq, Repr

/-- The read-and-mutate phase of PATCH /api/jobs/:id/reassign
(routes/jobs.js): gate on the snapshot's status being ASSIGNED,
DISPATCHED or IN_PROGRESS, then record the modifications `save()` will
send: the new technician, the status reset to ASSIGNED, and the pushed
history record whose `fromStatus` is the snapshot's status. The old
and new technician names only feed the default note. -/
def reassignPrepare (j : Job) (users : UserDir) (technicianId : Nat) (actorId : Nat)
    (notes : String) (now : Nat) : Except (String × Nat) ReassignDelta :=
  if j.status = Status.ASSIGNED ∨ j.status = Status.DISPATCHED
      ∨ j.status = Status.IN_PROGRESS then
    let oldTechName :=
      match j.assignedTechnician with
      | some tid =>
        match lookupUser users tid with
        | some u2 => u2.name
        | none => "previous technician"
      | none => "previous technician"
    let newTechName :=
      match lookupUser users technicianId with
      | some u2 => u2.name
      | none => "new technician"
    Except.ok
      { technicianId := technicianId
        entry :=
          { fromStatus := some j.status
            toStatus := Status.ASSIGNED
            changedBy := actorId
            changedAt := now
            notes := if notes = "" then
                "Reassigned from " ++ oldTechName ++ " to " ++ newTechName
              else notes } }
  else
    Except.error ("Cannot reassign a job in " ++ j.status.toStr
      ++ " status. Job must be in ASSIGNED, DISPATCHED, or IN_PROGRESS.", 400)

/-- The save delta applied to whatever document is stored at write
time: `$set` the two scalar paths, `$push` the record onto the stored
history. -/
def applyReassignDelta (cur : Job) (d : ReassignDelta) : Job :=
  { cur with
    status := Status.ASSIGNED
    assignedTechnician := some d.technicianId
    statusHistory := cur.statusHistory ++ [d.entry] }

/-- `job.save()` at the end of the reassign route: an update keyed on
the id alone (the schema sets no optimisticConcurrency, and a `$push`
only increments `__v` without adding it to the filter), carrying no
status precondition. If the job still exists, the delta is applied to
whatever document is stored at write time. -/
def reassignSave (store : Option Job) (d : ReassignDelta) : Option Job :=
  match store with
  | none => none
  | some cur => some (applyReassignDelta cur d)

/-- The whole reassign route run sequentially: load, prepare, save;
the response carries the saved document. -/
def reassignRoute (store : Option Job) (users : UserDir) (technicianId : Nat)
    (actor : Actor) (notes : String) (now : Nat) : SvcResult × Option Job :=
  match store with
  | none => (SvcResult.err "Job not found" 404, none)
  | some j =>
    match reassignPrepare j users technicianId actor.id notes now with
    | Except.error (e, c) => (SvcResult.err e c, some j)
    | Except.ok d => (SvcResult.ok (applyReassignDelta j d), reassignSave (some j) d)

/-- N racing `attemptTransition` commits, linearized by the storage
layer in list order: each racer's conditional write runs atomically
against the store left by the previous one. Returns each racer's
success flag and the final store. -/
def runCommits (store : Option Job) : List PendingWrite → List Bool × Option Job
  | [] => ([], store)
  | w :: rest =>
    let r := attemptTransition store w
    let q := runCommits r.2 rest
    (r.1.isSome :: q.1, q.2)

/-- One queued `transitionStatus` request. -/
structure TransReq where
  target : Status
  user : Actor
  notes : String
  now : Nat
deriving DecidableEq, Repr

/-- A sequence of `transitionStatus` calls run back to back against the
per-job store: the list of results and the final store. -/
def runTransitions (store : Option Job) : List TransReq → List SvcResult × Option Job
  | [] => ([], store)
  | r :: rest =>
    let p := transitionStatus store r.target r.user r.notes r.now
    let q := runTransitions p.2 rest
    (p.1 :: q.1, q.2)

/-- The link between two adjacent history records: each record's
`fromStatus` is the previous record's `toStatus`. -/
def historyStep (a b : HistoryRecord) : Prop :=
  b.fromStatus = some a.toStatus

instance : DecidableRel historyStep := fun a b =>
  inferInstanceAs (Decidable (b.fromStatus = some a.toStatus))

/-- The history-ledger invariant of the spec's data model: the first
record is the creation record (null → TENTATIVE), adjacent records
link up, and the job's status is the last record's `toStatus`. -/
def ledgerInv (j : Job) : Prop :=
  (j.statusHistory.head?).map (fun h => (h.fromStatus, h.toStatus))
      = some (none, Status.TENTATIVE) ∧
  List.Chain' historyStep j.statusHistory ∧
  (j.statusHistory.getLast?).map (fun h => h.toStatus) = some j.status

instance (j : Job) : Decidable (ledgerInv j) :=
  inferInstanceAs (Decidable (_ ∧ _ ∧ _))

/-- The job-mutating operations of the core, for reasoning about whole
operation sequences: ordinary transitions, first assignment, and
reassignment. -/
inductive Op where
  | trans (target : Status) (user : Actor) (notes : String) (now : Nat)
  | assign (technicianId : Nat) (user : Actor) (notes : String) (now : Nat)
  | reassign (technicianId : Nat) (actor : Actor) (notes : String) (now : Nat)
deriving DecidableEq, Repr

/-- The store effect of one operation. -/
def applyOp (users : UserDir) (store : Option Job) : Op → Option Job
  | .trans t u n now => (transitionStatus store t u n now).2
  | .assign tid u n now => (assignTechnician store users tid u n now).2
  | .reassign tid a n now => (reassignRoute store users tid a n now).2

/-- A sequence of operations run back to back. -/
def runOps (users : UserDir) (store : Option Job) : List Op → Option Job
  | [] => store
  | op :: rest => runOps users (applyOp users store op) rest

/-- The timestamp-field invariant: `completedAt` is only ever populated
on a job that has reached COMPLETED (or BILLED beyond it), and
`billedAt` only on a BILLED job. -/
def tsInv (j : Job) : Prop :=
  (j.completedAt ≠ none → j.status = Status.COMPLETED ∨ j.status = Status.BILLED) ∧
  (j.billedAt ≠ none → j.status = Status.BILLED)

instance (j : Job) : Decidable (tsInv j) :=
  inferInstanceAs (Decidable (_ ∧ _))

/-- A legal transition never targets the current status (the source's
first check). -/
theorem validateTransition_none_ne (cs ns : Status) (r : Role)
    (h : validateTransition cs ns r = none) : cs ≠ ns := by
  intro he
  subst he
  simp [validateTransition] at h

/-- Shape of a successful `prepareTransition`: the conditional write it
builds expects exactly the snapshot's status, targets the requested
status, and its history entry records that move; and the target differs
from the snapshot's status. -/
theorem prepareTransition_ok (j : Job) (T : Status) (u : Actor) (n : String) (t : Nat)
    (w : PendingWrite) (h : prepareTransition j T u n t = Except.ok w) :
    w.expected = j.status ∧ w.newStatus = T ∧ j.status ≠ T ∧
    w.entry.fromStatus = some j.status ∧ w.entry.toStatus = T ∧
    w.setCompletedAt = (if T = Status.COMPLETED then some t else none) ∧
    w.setBilledAt = (if T = Status.BILLED then some t else none) ∧
    validateTransition j.status T u.role = none := by
  unfold prepareTransition at h
  cases hv : validateTransition j.status T u.role with
  | some e =>
    simp only [hv] at h
    exact Except.noConfusion h
  | none =>
    simp only [hv] at h
    by_cases hd : T = Status.DISPATCHED ∧ isBlank n = true
    · rw [if_pos hd] at h
      exact Except.noConfusion h
    · rw [if_neg hd] at h
      by_cases ha : u.role = Role.TECHNICIAN
          ∧ (j.assignedTechnician = none ∨ j.assignedTechnician ≠ some u.id)
      · rw [if_pos ha] at h
        exact Except.noConfusion h
      · rw [if_neg ha] at h
        injection h with h2
        subst h2
        exact ⟨rfl, rfl, validateTransition_none_ne _ _ _ hv, rfl, rfl, rfl, rfl, rfl⟩

/-- A batch of conditional writes whose expected status never matches
the stored one all conflict and leave the store untouched. -/
theorem runCommits_all_conflict (j : Job) (ws : List PendingWrite)
    (h : ∀ w ∈ ws, j.status ≠ w.expected) :
    runCommits (some j) ws = (List.replicate ws.length false, some j) := by
  induction ws with
  | nil => rfl
  | cons w rest ih =>
    have hw : j.status ≠ w.expected := h w (List.mem_cons_self _ _)
    have hrest := ih (fun x hx => h x (List.mem_cons_of_mem _ hx))
    simp [runCommits, attemptTransition, if_neg hw, hrest, List.replicate_succ]

/-- C1: among N concurrent `transitionStatus` calls racing from the
same snapshot (each passed validation reading status S and built a
conditional write expecting S, targeting T), in whatever order the
storage layer linearizes the commits, exactly the first one succeeds
and every other one conflicts; afterwards the job's status is T and the
history has grown by exactly the winner's record. -/
theorem concurrent_transition_single_winner (j : Job) (T : Status)
    (ws : List PendingWrite) (hne : ws ≠ [])
    (hws : ∀ w ∈ ws, ∃ u n t, prepareTransition j T u n t = Except.ok w) :
    (runCommits (some j) ws).1 = true :: List.replicate (ws.length - 1) false ∧
    ∃ w0 rest jf, ws = w0 :: rest ∧ (runCommits (some j) ws).2 = some jf ∧
      jf.status = T ∧
      jf.statusHistory = j.statusHistory ++ [w0.entry] ∧
      jf.statusHistory.length = j.statusHistory.length + 1 := by
  cases ws with
  | nil => exact absurd rfl hne
  | cons w0 rest =>
    obtain ⟨u, n, t, hp⟩ := hws w0 (List.mem_cons_self _ _)
    obtain ⟨he, hn, hsne, -, -, -, -, -⟩ := prepareTransition_ok _ _ _ _ _ _ hp
    have h1 : attemptTransition (some j) w0
        = (some (applyWrite j w0), some (applyWrite j w0)) := by
      simp [attemptTransition, he.symm]
    have hstat : (applyWrite j w0).status = T := by
      simp [applyWrite, hn]
    have hrest : ∀ w ∈ rest, (applyWrite j w0).status ≠ w.expected := by
      intro w hw
      obtain ⟨u2, n2, t2, hp2⟩ := hws w (List.mem_cons_of_mem _ hw)
      obtain ⟨he2, -, hsne2, -, -, -, -, -⟩ := prepareTransition_ok _ _ _ _ _ _ hp2
      rw [hstat, he2]
      exact fun hEq => hsne2 hEq.symm
    have h2 := runCommits_all_conflict (applyWrite j w0) rest hrest
    refine ⟨?_, w0, rest, applyWrite j w0, rfl, ?_, hstat, ?_, ?_⟩
    · simp [runCommits, h1, h2]
    · simp [runCommits, h1, h2]
    · simp [applyWrite]
    · simp [applyWrite]

/-- A concrete job at ASSIGNED with its full lineage, used by the
concurrency witness. -/
def c1data : JobData :=
  { title := "Replace breaker panel", description := "200A service"
    customerName := "Acme Corp", customerPhone := "555-0100"
    customerEmail := "ops@acme.test", address := "1 Main St"
    scheduledDate := some 30, estimatedCost := some 1200, notes := "" }

def c1users : UserDir :=
  [(10, { name := "John Tech", role := Role.TECHNICIAN })]

def c1job : Job :=
  (runOps c1users (some (createJob c1data 1 0))
      [Op.trans Status.CONFIRMED ⟨1, Role.ADMIN⟩ "" 1,
       Op.assign 10 ⟨1, Role.ADMIN⟩ "" 2]).getD (createJob c1data 1 0)

/-- The conditional write built by the first racing dispatcher. -/
def c1w1 : PendingWrite :=
  (prepareTransition c1job Status.DISPATCHED ⟨2, Role.OFFICE_MANAGER⟩ "bring part X" 5).toOption.getD
    { expected := Status.ASSIGNED, newStatus := Status.DISPATCHED,
      setCompletedAt := none, setBilledAt := none,
      entry := { fromStatus := none, toStatus := Status.DISPATCHED,
                 changedBy := 0, changedAt := 0, notes := "" } }

/-- The conditional write built by the second racing dispatcher. -/
def c1w2 : PendingWrite :=
  (prepareTransition c1job Status.DISPATCHED ⟨3, Role.OFFICE_MANAGER⟩ "take ladder" 5).toOption.getD
    { expected := Status.ASSIGNED, newStatus := Status.DISPATCHED,
      setCompletedAt := none, setBilledAt := none,
      entry := { fromStatus := none, toStatus := Status.DISPATCHED,
                 changedBy := 0, changedAt := 0, notes := "" } }

/-- C1 witness: two concrete OFFICE_MANAGER dispatch requests racing on
the same ASSIGNED job; the first linearized commit wins, the second
conflicts. -/
theorem concurrent_transition_single_winner_witness :
    (runCommits (some c1job) [c1w1, c1w2]).1
        = true :: List.replicate ([c1w1, c1w2].length - 1) false ∧
    ∃ w0 rest jf, [c1w1, c1w2] = w0 :: rest ∧
      (runCommits (some c1job) [c1w1, c1w2]).2 = some jf ∧
      jf.status = Status.DISPATCHED ∧
      jf.statusHistory = c1job.statusHistory ++ [w0.entry] ∧
      jf.statusHistory.length = c1job.statusHistory.length + 1 :=
  concurrent_transition_single_winner c1job Status.DISPATCHED [c1w1, c1w2]
    (List.cons_ne_nil _ _)
    (by
      intro w hw
      simp only [List.mem_cons, List.not_mem_nil, or_false] at hw
      rcases hw with h | h
      · subst h
        exact ⟨⟨2, Role.OFFICE_MANAGER⟩, "bring part X", 5, by decide⟩
      · subst h
        exact ⟨⟨3, Role.OFFICE_MANAGER⟩, "take ladder", 5, by decide⟩)

/-- Shape of a successful sequential `transitionStatus`: the store
holds the returned snapshot, its status is the target, and its history
is the old history plus one record linking the old status to the
target. -/
theorem transitionStatus_ok_step (j jb : Job) (st2 : Option Job) (t : Status) (u : Actor)
    (n : String) (now : Nat)
    (h : transitionStatus (some j) t u n now = (SvcResult.ok jb, st2)) :
    st2 = some jb ∧ jb.status = t ∧
    ∃ e, jb.statusHistory = j.statusHistory ++ [e] ∧
      e.fromStatus = some j.status ∧ e.toStatus = t := by
  unfold transitionStatus at h
  cases hp : prepareTransition j t u n now with
  | error ec =>
    rcases ec with ⟨e, c⟩
    simp only [hp] at h
    simp at h
  | ok w =>
    obtain ⟨he, hn, -, hef, het, -, -, -⟩ := prepareTransition_ok _ _ _ _ _ _ hp
    have ha : attemptTransition (some j) w
        = (some (applyWrite j w), some (applyWrite j w)) := by
      simp [attemptTransition, he.symm]
    simp only [hp, ha] at h
    have hjb : jb = applyWrite j w := by
      have := congrArg Prod.fst h
      simp at this
      exact this.symm
    have hst : st2 = some (applyWrite j w) := by
      have := congrArg Prod.snd h
      simp at this
      exact this.symm
    subst hjb
    refine ⟨hst, by simp [applyWrite, hn], w.entry, by simp [applyWrite], hef, het⟩

/-- A successful transition preserves the history-ledger invariant and
extends the ledger by exactly one record. -/
theorem ledgerInv_step (j jb : Job) (st2 : Option Job) (t : Status) (u : Actor)
    (n : String) (now : Nat) (hInv : ledgerInv j)
    (h : transitionStatus (some j) t u n now = (SvcResult.ok jb, st2)) :
    st2 = some jb ∧ ledgerInv jb ∧
    jb.statusHistory.length = j.statusHistory.length + 1 ∧
    ∃ tl, jb.statusHistory = j.statusHistory ++ tl := by
  obtain ⟨hst, hstat, e, hh, hf, ht⟩ := transitionStatus_ok_step j jb st2 t u n now h
  obtain ⟨hhead, hchain, hlast⟩ := hInv
  refine ⟨hst, ⟨?_, ?_, ?_⟩, ?_, ⟨[e], hh⟩⟩
  · rw [hh]
    cases hs : j.statusHistory with
    | nil => rw [hs] at hhead; simp at hhead
    | cons h0 rest => rw [hs] at hhead; simpa using hhead
  · rw [hh, List.chain'_append]
    refine ⟨hchain, List.chain'_singleton e, ?_⟩
    intro x hx y hy
    simp at hy
    subst hy
    cases hl : j.statusHistory.getLast? with
    | none => rw [hl] at hx; simp at hx
    | some hlrec =>
      rw [hl] at hx
      simp at hx
      subst hx
      rw [hl] at hlast
      simp at hlast
      unfold historyStep
      rw [hf, hlast]
  · rw [hh, List.getLast?_concat]
    simp [ht, hstat]
  · simp [hh]

/-- Running a request list from any job satisfying the ledger invariant,
if every result is a success, ends at a job still satisfying it whose
ledger grew by exactly one record per request and extends the original
ledger. -/
theorem runTransitions_ledger (reqs : List TransReq) : ∀ (j : Job), ledgerInv j →
    ((runTransitions (some j) reqs).1.all SvcResult.isOk = true) →
    ∃ jf, (runTransitions (some j) reqs).2 = some jf ∧ ledgerInv jf ∧
      jf.statusHistory.length = j.statusHistory.length + reqs.length ∧
      ∃ tl, jf.statusHistory = j.statusHistory ++ tl := by
  induction reqs with
  | nil =>
    intro j hInv _
    exact ⟨j, rfl, hInv, by simp [runTransitions], ⟨[], by simp⟩⟩
  | cons r rest ih =>
    intro j hInv hall
    have hall2 : (transitionStatus (some j) r.target r.user r.notes r.now).1.isOk = true
        ∧ ((runTransitions (transitionStatus (some j) r.target r.user r.notes r.now).2
            rest).1.all SvcResult.isOk = true) := by
      simpa [runTransitions, List.all_cons] using hall
    cases hres : (transitionStatus (some j) r.target r.user r.notes r.now).1 with
    | err e c => rw [hres] at hall2; simp [SvcResult.isOk] at hall2
    | ok jb =>
      have hfull : transitionStatus (some j) r.target r.user r.notes r.now
          = (SvcResult.ok jb, (transitionStatus (some j) r.target r.user r.notes r.now).2) := by
        rw [← hres]
      obtain ⟨hst, hInv2, hlen, tl1, hext1⟩ :=
        ledgerInv_step j jb _ r.target r.user r.notes r.now hInv hfull
      obtain ⟨jf, hjf, hInvf, hlenf, tl2, hext2⟩ := ih jb hInv2 (by rw [← hst]; exact hall2.2)
      refine ⟨jf, ?_, hInvf, ?_, ?_⟩
      · simp only [runTransitions]
        rw [hst, hjf]
      · rw [hlenf, hlen]
        simp only [List.length_cons]
        omega
      · refine ⟨tl1 ++ tl2, ?_⟩
        rw [hext2, hext1, List.append_assoc]

/-- A freshly created job satisfies the ledger invariant. -/
theorem createJob_ledgerInv (d : JobData) (uid now : Nat) :
    ledgerInv (createJob d uid now) := by
  refine ⟨rfl, ?_, rfl⟩
  simp [createJob, List.chain'_singleton]

/-- C3: from `createJob` followed by any N successful `transitionStatus`
calls, the ledger invariants hold: the history has N+1 records, starts
with the creation record (null → TENTATIVE), adjacent records link up,
the job's status is the last record's `toStatus`, and the history only
ever grows at the tail (the initial ledger is a prefix, never truncated
or reordered). -/
theorem history_ledger_invariants (d : JobData) (uid cnow : Nat) (reqs : List TransReq)
    (hok : (runTransitions (some (createJob d uid cnow)) reqs).1.all SvcResult.isOk = true) :
    ∃ jf, (runTransitions (some (createJob d uid cnow)) reqs).2 = some jf ∧
      jf.statusHistory.length = reqs.length + 1 ∧
      (jf.statusHistory.head?).map (fun h => (h.fromStatus, h.toStatus))
          = some (none, Status.TENTATIVE) ∧
      List.Chain' historyStep jf.statusHistory ∧
      (jf.statusHistory.getLast?).map (fun h => h.toStatus) = some jf.status ∧
      ∃ tl, jf.statusHistory = (createJob d uid cnow).statusHistory ++ tl := by
  obtain ⟨jf, hjf, ⟨hh, hc, hl⟩, hlen, htl⟩ :=
    runTransitions_ledger reqs (createJob d uid cnow) (createJob_ledgerInv d uid cnow) hok
  refine ⟨jf, hjf, ?_, hh, hc, hl, htl⟩
  rw [hlen]
  simp [createJob]
  omega

/-- Three concrete successful transition requests: confirm, assign is
not needed for these three steps — confirm, then first-assignment is
replaced here by the ADMIN-driven CONFIRMED → ASSIGNED transition, then
dispatch with notes. -/
def c3reqs : List TransReq :=
  [{ target := Status.CONFIRMED, user := ⟨1, Role.ADMIN⟩, notes := "", now := 1 },
   { target := Status.ASSIGNED, user := ⟨1, Role.ADMIN⟩, notes := "", now := 2 },
   { target := Status.DISPATCHED, user := ⟨2, Role.OFFICE_MANAGER⟩,
     notes := "bring part X", now := 3 }]

/-- C3 witness: the concrete three-step run succeeds and the ledger
invariants hold at its end. -/
theorem history_ledger_invariants_witness :
    ∃ jf, (runTransitions (some (createJob c1data 1 0)) c3reqs).2 = some jf ∧
      jf.statusHistory.length = c3reqs.length + 1 ∧
      (jf.statusHistory.head?).map (fun h => (h.fromStatus, h.toStatus))
          = some (none, Status.TENTATIVE) ∧
      List.Chain' historyStep jf.statusHistory ∧
      (jf.statusHistory.getLast?).map (fun h => h.toStatus) = some jf.status ∧
      ∃ tl, jf.statusHistory = (createJob c1data 1 0).statusHistory ++ tl :=
  history_ledger_invariants c1data 1 0 c3reqs (by decide)

/-- For a TECHNICIAN, a role-valid transition can only target
IN_PROGRESS or COMPLETED, never DISPATCHED. -/
theorem technician_valid_target_not_dispatch :
    ∀ cs ns, validateTransition cs ns Role.TECHNICIAN = none
      → ns ≠ Status.DISPATCHED := by decide

/-- C8: a transition request by a TECHNICIAN who is not the assigned
technician of the job (unset or a different id) fails with the 403
"You are not assigned to this job" error and performs no write, even
though the state-machine transition and role are otherwise valid. -/
theorem technician_not_assigned_rejected (j : Job) (t : Status) (u : Actor) (n : String)
    (now : Nat) (hrole : u.role = Role.TECHNICIAN)
    (hown : j.assignedTechnician = none ∨ j.assignedTechnician ≠ some u.id)
    (hvalid : validateTransition j.status t u.role = none) :
    transitionStatus (some j) t u n now
      = (SvcResult.err "You are not assigned to this job" 403, some j) := by
  have ht : ¬(t = Status.DISPATCHED ∧ isBlank n = true) := by
    intro hc
    rw [hrole] at hvalid
    exact technician_valid_target_not_dispatch _ _ hvalid hc.1
  unfold transitionStatus prepareTransition
  simp only [hvalid]
  rw [if_neg ht, if_pos ⟨hrole, hown⟩]

/-- A concrete DISPATCHED job assigned to technician 10. -/
def c8job : Job :=
  (runOps c1users (some (createJob c1data 1 0))
      [Op.trans Status.CONFIRMED ⟨1, Role.ADMIN⟩ "" 1,
       Op.assign 10 ⟨1, Role.ADMIN⟩ "" 2,
       Op.trans Status.DISPATCHED ⟨2, Role.OFFICE_MANAGER⟩ "bring part X" 3]).getD
    (createJob c1data 1 0)

/-- C8 witness: technician 99 (not the assigned technician 10) attempts
the role-valid DISPATCHED → IN_PROGRESS move and is rejected. -/
theorem technician_not_assigned_rejected_witness :
    transitionStatus (some c8job) Status.IN_PROGRESS ⟨99, Role.TECHNICIAN⟩ "" 4
      = (SvcResult.err "You are not assigned to this job" 403, some c8job) :=
  technician_not_assigned_rejected c8job Status.IN_PROGRESS ⟨99, Role.TECHNICIAN⟩ "" 4
    rfl (by decide) (by decide)

/-- On a BILLED job every validation fails (either the terminal-state
enumeration or the self-transition error). -/
theorem validateTransition_billed_isSome :
    ∀ t r, (validateTransition Status.BILLED t r).isSome = true := by decide

/-- C4: a BILLED job is frozen: every transition attempt, every
detail-edit attempt through the PUT route, and every delete attempt
fails, and the stored job is unchanged in each case. -/
theorem billed_jobs_frozen (j : Job) (hb : j.status = Status.BILLED) :
    (∀ t u n now, ∃ msg, transitionStatus (some j) t u n now
        = (SvcResult.err msg 400, some j)) ∧
    (∀ d, putJob (some j) d = (SvcResult.err "Billed jobs cannot be edited" 400, some j)) ∧
    deleteJob (some j) = (DeleteResult.err "Billed jobs cannot be deleted" 400, some j) := by
  refine ⟨?_, ?_, ?_⟩
  · intro t u n now
    have hs := validateTransition_billed_isSome t u.role
    obtain ⟨e, he⟩ := Option.isSome_iff_exists.mp hs
    refine ⟨e, ?_⟩
    unfold transitionStatus prepareTransition
    simp only [hb, he]
  · intro d
    simp [putJob, hb]
  · simp [deleteJob, hb]

/-- An edit request carrying no fields at all. -/
def noEdit : EditData :=
  { title := none, description := none, customerName := none, customerPhone := none
    customerEmail := none, address := none, scheduledDate := none, estimatedCost := none
    actualCost := none, notes := none, completedAt := none, billedAt := none
    status := none, statusHistory := none, assignedTechnician := none, createdBy := none }

/-- A concrete BILLED job, reached through the full lifecycle. -/
def c4job : Job :=
  (runOps c1users (some (createJob c1data 1 0))
      [Op.trans Status.CONFIRMED ⟨1, Role.ADMIN⟩ "" 1,
       Op.assign 10 ⟨1, Role.ADMIN⟩ "" 2,
       Op.trans Status.DISPATCHED ⟨2, Role.OFFICE_MANAGER⟩ "bring part X" 3,
       Op.trans Status.IN_PROGRESS ⟨10, Role.TECHNICIAN⟩ "" 4,
       Op.trans Status.COMPLETED ⟨10, Role.TECHNICIAN⟩ "" 5,
       Op.trans Status.BILLED ⟨2, Role.OFFICE_MANAGER⟩ "" 6]).getD
    (createJob c1data 1 0)

/-- C4 witness: the concrete BILLED job rejects a transition attempt, a
detail edit, and a delete, each leaving the store unchanged. -/
theorem billed_jobs_frozen_witness :
    c4job.status = Status.BILLED ∧
    (∃ msg, transitionStatus (some c4job) Status.CONFIRMED ⟨1, Role.ADMIN⟩ "" 9
        = (SvcResult.err msg 400, some c4job)) ∧
    putJob (some c4job) noEdit = (SvcResult.err "Billed jobs cannot be edited" 400, some c4job) ∧
    deleteJob (some c4job) = (DeleteResult.err "Billed jobs cannot be deleted" 400, some c4job) :=
  ⟨by decide,
   (billed_jobs_frozen c4job (by decide)).1 Status.CONFIRMED ⟨1, Role.ADMIN⟩ "" 9,
   (billed_jobs_frozen c4job (by decide)).2.1 noEdit,
   (billed_jobs_frozen c4job (by decide)).2.2⟩

/-- C9: a detail edit never changes `status`, `statusHistory`,
`assignedTechnician` or `createdBy`, whatever fields the input carries
(including explicit values for those four): `updateJobDetails` applies
exactly the stripped field set and the four protected fields of the
result equal the stored ones. -/
theorem updateJobDetails_frame (j : Job) (d : EditData) :
    updateJobDetails (some j) d
      = (SvcResult.ok (applyDetails j d), some (applyDetails j d)) ∧
    (applyDetails j d).status = j.status ∧
    (applyDetails j d).statusHistory = j.statusHistory ∧
    (applyDetails j d).assignedTechnician = j.assignedTechnician ∧
    (applyDetails j d).createdBy = j.createdBy :=
  ⟨rfl, rfl, rfl, rfl, rfl⟩

/-- C10: when `assignTechnician`'s conditional write keyed on
(jobId, CONFIRMED) does not match (and the earlier technician and
policy checks passed), the advisory read-only lookup yields NotFound
for an absent job and otherwise the diagnostic naming the job's actual
current status; the store is never mutated on this path. -/
theorem assign_conflict_diagnostic (store : Option Job) (users : UserDir) (tid : Nat)
    (u : Actor) (n : String) (now : Nat)
    (htech : (lookupUser users tid).map UserRec.role = some Role.TECHNICIAN)
    (hval : validateTransition Status.CONFIRMED Status.ASSIGNED u.role = none)
    (hmiss : ∀ j, store = some j → j.status ≠ Status.CONFIRMED) :
    (assignTechnician store users tid u n now).2 = store ∧
    (store = none → assignTechnician store users tid u n now
        = (SvcResult.err "Job not found" 404, none)) ∧
    (∀ j, store = some j → assignTechnician store users tid u n now
        = (SvcResult.err ("Job must be CONFIRMED to assign. Current status: "
            ++ j.status.toStr) 400, some j)) := by
  cases hl : lookupUser users tid with
  | none => rw [hl] at htech; simp at htech
  | some tech =>
    rw [hl] at htech
    have htr : tech.role = Role.TECHNICIAN := Option.some.inj htech
    cases store with
    | none =>
      have hres : assignTechnician none users tid u n now
          = (SvcResult.err "Job not found" 404, none) := by
        unfold assignTechnician
        simp only [hl, hval]
        rw [if_neg (by simp [htr])]
      exact ⟨by rw [hres], fun _ => hres, fun j hj => Option.noConfusion hj⟩
    | some j =>
      have hne : j.status ≠ Status.CONFIRMED := hmiss j rfl
      have hres : assignTechnician (some j) users tid u n now
          = (SvcResult.err ("Job must be CONFIRMED to assign. Current status: "
              ++ j.status.toStr) 400, some j) := by
        unfold assignTechnician
        simp only [hl, hval]
        rw [if_neg (by simp [htr]), if_neg hne]
      refine ⟨by rw [hres], fun h => Option.noConfusion h, fun j2 hj2 => ?_⟩
      cases hj2
      exact hres

/-- C10 witness: assigning on the concrete DISPATCHED job: the write
cannot match and the diagnostic names DISPATCHED. -/
theorem assign_conflict_diagnostic_witness :
    assignTechnician (some c8job) c1users 10 ⟨1, Role.ADMIN⟩ "" 7
      = (SvcResult.err ("Job must be CONFIRMED to assign. Current status: "
          ++ c8job.status.toStr) 400, some c8job) :=
  (assign_conflict_diagnostic (some c8job) c1users 10 ⟨1, Role.ADMIN⟩ "" 7
    (by decide) (by decide) (fun j hj => by cases hj; decide)).2.2 c8job rfl

/-- COMPLETED is only reachable from IN_PROGRESS. -/
theorem valid_completed_from :
    ∀ cs r, validateTransition cs Status.COMPLETED r = none → cs = Status.IN_PROGRESS := by
  decide

/-- BILLED is only reachable from COMPLETED. -/
theorem valid_billed_from :
    ∀ cs r, validateTransition cs Status.BILLED r = none → cs = Status.COMPLETED := by
  decide

/-- From COMPLETED or BILLED the only legal target is BILLED. -/
theorem valid_from_completed_or_billed :
    ∀ cs ns r, validateTransition cs ns r = none →
      (cs = Status.COMPLETED ∨ cs = Status.BILLED) → ns = Status.BILLED := by
  decide

/-- The store after a sequential `transitionStatus` on an existing job:
either unchanged, or holding the snapshot with one prepared write
applied. -/
theorem transitionStatus_store_cases (j : Job) (t : Status) (u : Actor) (n : String)
    (now : Nat) :
    (transitionStatus (some j) t u n now).2 = some j ∨
    ∃ w, prepareTransition j t u n now = Except.ok w ∧
      (transitionStatus (some j) t u n now).2 = some (applyWrite j w) := by
  cases hp : prepareTransition j t u n now with
  | error ec =>
    rcases ec with ⟨e, c⟩
    left
    simp [transitionStatus, hp]
  | ok w =>
    right
    obtain ⟨he, -, -, -, -, -, -, -⟩ := prepareTransition_ok _ _ _ _ _ _ hp
    have ha : attemptTransition (some j) w
        = (some (applyWrite j w), some (applyWrite j w)) := by
      simp [attemptTransition, he.symm]
    exact ⟨w, rfl, by simp [transitionStatus, hp, ha]⟩

/-- The store after `assignTechnician` on an existing job: either
unchanged, or (the job was CONFIRMED and) an updated record with
status ASSIGNED and untouched `completedAt`/`billedAt`. -/
theorem assignTechnician_store_cases (j : Job) (users : UserDir) (tid : Nat) (u : Actor)
    (n : String) (now : Nat) :
    (assignTechnician (some j) users tid u n now).2 = some j ∨
    (j.status = Status.CONFIRMED ∧
      ((assignTechnician (some j) users tid u n now).2).map Job.status
          = some Status.ASSIGNED ∧
      ((assignTechnician (some j) users tid u n now).2).map Job.completedAt
          = some j.completedAt ∧
      ((assignTechnician (some j) users tid u n now).2).map Job.billedAt
          = some j.billedAt) := by
  cases hl : lookupUser users tid with
  | none =>
    left
    simp [assignTechnician, hl]
  | some tech =>
    by_cases hr : tech.role = Role.TECHNICIAN
    · cases hv : validateTransition Status.CONFIRMED Status.ASSIGNED u.role with
      | some e =>
        left
        simp [assignTechnician, hl, hr, hv]
      | none =>
        by_cases hc : j.status = Status.CONFIRMED
        · right
          refine ⟨hc, ?_, ?_, ?_⟩ <;> simp [assignTechnician, hl, hr, hv, hc]
        · left
          simp [assignTechnician, hl, hr, hv, hc]
    · left
      simp [assignTechnician, hl, hr]

/-- The store after the reassign route on an existing job: either
unchanged, or (the gate held and) the saved document with status
ASSIGNED and untouched `completedAt`/`billedAt`. -/
theorem reassignRoute_store_cases (j : Job) (users : UserDir) (tid : Nat) (a : Actor)
    (n : String) (now : Nat) :
    (reassignRoute (some j) users tid a n now).2 = some j ∨
    ((j.status = Status.ASSIGNED ∨ j.status = Status.DISPATCHED
        ∨ j.status = Status.IN_PROGRESS) ∧
      ((reassignRoute (some j) users tid a n now).2).map Job.status
          = some Status.ASSIGNED ∧
      ((reassignRoute (some j) users tid a n now).2).map Job.completedAt
          = some j.completedAt ∧
      ((reassignRoute (some j) users tid a n now).2).map Job.billedAt
          = some j.billedAt) := by
  by_cases hg : j.status = Status.ASSIGNED ∨ j.status = Status.DISPATCHED
      ∨ j.status = Status.IN_PROGRESS
  · right
    refine ⟨hg, ?_, ?_, ?_⟩ <;>
      simp [reassignRoute, reassignPrepare, reassignSave, applyReassignDelta, if_pos hg]
  · left
    simp [reassignRoute, reassignPrepare, if_neg hg]

/-- One operation on an existing job preserves the timestamp-field
invariant and never clears or changes an already-set `completedAt` or
`billedAt`. -/
theorem applyOp_ts_step (users : UserDir) (j j2 : Job) (op : Op)
    (hInv : tsInv j) (h : applyOp users (some j) op = some j2) :
    tsInv j2 ∧ (∀ x, j.completedAt = some x → j2.completedAt = some x) ∧
    (∀ x, j.billedAt = some x → j2.billedAt = some x) := by
  obtain ⟨hIc, hIb⟩ := hInv
  cases op with
  | trans t u n now =>
    simp only [applyOp] at h
    rcases transitionStatus_store_cases j t u n now with hc | ⟨w, hp, hc⟩
    · rw [hc] at h
      cases Option.some.inj h
      exact ⟨⟨hIc, hIb⟩, fun _ hx => hx, fun _ hx => hx⟩
    · rw [hc] at h
      cases Option.some.inj h
      obtain ⟨-, hn, -, -, -, hsc, hsb, hv⟩ := prepareTransition_ok _ _ _ _ _ _ hp
      by_cases hC : t = Status.COMPLETED
      · have hfrom : j.status = Status.IN_PROGRESS := by
          apply valid_completed_from j.status u.role
          rw [← hC]; exact hv
        have hcn : j.completedAt = none := by
          by_contra hx
          rcases hIc hx with h1 | h1 <;> rw [hfrom] at h1 <;> exact Status.noConfusion h1
        have hbn : j.billedAt = none := by
          by_contra hx
          have h1 := hIb hx
          rw [hfrom] at h1
          exact Status.noConfusion h1
        have hB : t ≠ Status.BILLED := by rw [hC]; decide
        refine ⟨⟨fun _ => ?_, fun hx => ?_⟩, fun x hx => ?_, fun x hx => ?_⟩
        · left
          simp [applyWrite, hn, hC]
        · exfalso
          apply hx
          simp [applyWrite, hsb, if_neg hB, hbn]
        · rw [hcn] at hx; exact Option.noConfusion hx
        · rw [hbn] at hx; exact Option.noConfusion hx
      · by_cases hB : t = Status.BILLED
        · have hfrom : j.status = Status.COMPLETED := by
            apply valid_billed_from j.status u.role
            rw [← hB]; exact hv
          have hbn : j.billedAt = none := by
            by_contra hx
            have h1 := hIb hx
            rw [hfrom] at h1
            exact Status.noConfusion h1
          refine ⟨⟨fun _ => ?_, fun _ => ?_⟩, fun x hx => ?_, fun x hx => ?_⟩
          · right; simp [applyWrite, hn, hB]
          · simp [applyWrite, hn, hB]
          · simp [applyWrite, hsc, if_neg hC]
            exact hx
          · rw [hbn] at hx; exact Option.noConfusion hx
        · have hnc : j.completedAt = none := by
            by_contra hx
            exact hB (valid_from_completed_or_billed j.status t u.role hv (hIc hx))
          have hnb : j.billedAt = none := by
            by_contra hx
            have h1 := hIb hx
            rw [h1] at hv
            have h2 := validateTransition_billed_isSome t u.role
            rw [hv] at h2
            exact Bool.noConfusion h2
          refine ⟨⟨fun hx => ?_, fun hx => ?_⟩, fun x hx => ?_, fun x hx => ?_⟩
          · exfalso
            apply hx
            simp [applyWrite, hsc, if_neg hC, hnc]
          · exfalso
            apply hx
            simp [applyWrite, hsb, if_neg hB, hnb]
          · rw [hnc] at hx; exact Option.noConfusion hx
          · rw [hnb] at hx; exact Option.noConfusion hx
  | assign tid u n now =>
    simp only [applyOp] at h
    rcases assignTechnician_store_cases j users tid u n now with hc | ⟨hst, hs3, hcp, hbp⟩
    · rw [hc] at h
      cases Option.some.inj h
      exact ⟨⟨hIc, hIb⟩, fun _ hx => hx, fun _ hx => hx⟩
    · rw [h] at hs3 hcp hbp
      simp only [Option.map] at hs3 hcp hbp
      have hs3j : j2.status = Status.ASSIGNED := Option.some.inj hs3
      have hcpj : j2.completedAt = j.completedAt := Option.some.inj hcp
      have hbpj : j2.billedAt = j.billedAt := Option.some.inj hbp
      have hnc : j.completedAt = none := by
        by_contra hx
        rcases hIc hx with h1 | h1 <;> rw [hst] at h1 <;> exact Status.noConfusion h1
      have hnb : j.billedAt = none := by
        by_contra hx
        have h1 := hIb hx
        rw [hst] at h1
        exact Status.noConfusion h1
      refine ⟨⟨fun hx => ?_, fun hx => ?_⟩, fun x hx => ?_, fun x hx => ?_⟩
      · exfalso; apply hx; rw [hcpj, hnc]
      · exfalso; apply hx; rw [hbpj, hnb]
      · rw [hnc] at hx; exact Option.noConfusion hx
      · rw [hnb] at hx; exact Option.noConfusion hx
  | reassign tid a n now =>
    simp only [applyOp] at h
    rcases reassignRoute_store_cases j users tid a n now with hc | ⟨hst, hs3, hcp, hbp⟩
    · rw [hc] at h
      cases Option.some.inj h
      exact ⟨⟨hIc, hIb⟩, fun _ hx => hx, fun _ hx => hx⟩
    · rw [h] at hs3 hcp hbp
      simp only [Option.map] at hs3 hcp hbp
      have hcpj : j2.completedAt = j.completedAt := Option.some.inj hcp
      have hbpj : j2.billedAt = j.billedAt := Option.some.inj hbp
      have hnc : j.completedAt = none := by
        by_contra hx
        rcases hIc hx with h1 | h1 <;>
          rcases hst with h3 | h3 | h3 <;> rw [h3] at h1 <;> exact Status.noConfusion h1
      have hnb : j.billedAt = none := by
        by_contra hx
        have h1 := hIb hx
        rcases hst with h3 | h3 | h3 <;> rw [h3] at h1 <;> exact Status.noConfusion h1
      refine ⟨⟨fun hx => ?_, fun hx => ?_⟩, fun x hx => ?_, fun x hx => ?_⟩
      · exfalso; apply hx; rw [hcpj, hnc]
      · exfalso; apply hx; rw [hbpj, hnb]
      · rw [hnc] at hx; exact Option.noConfusion hx
      · rw [hnb] at hx; exact Option.noConfusion hx

/-- No operation resurrects an absent job. -/
theorem applyOp_none (users : UserDir) (op : Op) : applyOp users none op = none := by
  cases op with
  | trans t u n now => rfl
  | assign tid u n now =>
    show (assignTechnician none users tid u n now).2 = none
    cases hl : lookupUser users tid with
    | none => simp [assignTechnician, hl]
    | some tech =>
      by_cases hr : tech.role = Role.TECHNICIAN
      · cases hv : validateTransition Status.CONFIRMED Status.ASSIGNED u.role with
        | some e => simp [assignTechnician, hl, hr, hv]
        | none => simp [assignTechnician, hl, hr, hv]
      · simp [assignTechnician, hl, hr]
  | reassign tid a n now => rfl

theorem runOps_none (users : UserDir) (l : List Op) : runOps users none l = none := by
  induction l with
  | nil => rfl
  | cons op rest ih =>
    simp only [runOps, applyOp_none]
    exact ih

/-- Running any operation sequence from a job satisfying the
timestamp-field invariant preserves it, and an already-set
`completedAt` or `billedAt` survives unchanged. -/
theorem runOps_ts (users : UserDir) (l : List Op) : ∀ (j jf : Job), tsInv j →
    runOps users (some j) l = some jf →
    tsInv jf ∧ (∀ x, j.completedAt = some x → jf.completedAt = some x) ∧
    (∀ x, j.billedAt = some x → jf.billedAt = some x) := by
  induction l with
  | nil =>
    intro j jf hInv h
    cases Option.some.inj h
    exact ⟨hInv, fun _ hx => hx, fun _ hx => hx⟩
  | cons op rest ih =>
    intro j jf hInv h
    simp only [runOps] at h
    cases hm : applyOp users (some j) op with
    | none =>
      rw [hm, runOps_none] at h
      exact Option.noConfusion h
    | some jm =>
      rw [hm] at h
      obtain ⟨hI, hc, hb⟩ := applyOp_ts_step users j jm op hInv hm
      obtain ⟨hIf, hcf, hbf⟩ := ih jm jf hI h
      exact ⟨hIf, fun x hx => hcf x (hc x hx), fun x hx => hbf x (hb x hx)⟩

/-- C6 (amended): across any sequence of transition, assignment and
reassignment operations on a job created by `createJob`, `completedAt`
and `billedAt`, once set, are never overwritten or cleared: whatever
value they hold after a prefix of the run, they still hold at the end.
(The original claim additionally covered detail edits; those CAN
overwrite both fields — see the counterexample.) -/
theorem completedAt_billedAt_write_once (users : UserDir) (d : JobData) (uid cnow : Nat)
    (l1 l2 : List Op) (j1 j2 : Job)
    (h1 : runOps users (some (createJob d uid cnow)) l1 = some j1)
    (h2 : runOps users (some j1) l2 = some j2) :
    (∀ x, j1.completedAt = some x → j2.completedAt = some x) ∧
    (∀ x, j1.billedAt = some x → j2.billedAt = some x) := by
  have hInv0 : tsInv (createJob d uid cnow) := by
    constructor <;> intro hx <;> simp [createJob] at hx
  obtain ⟨hI1, -, -⟩ := runOps_ts users l1 (createJob d uid cnow) j1 hInv0 h1
  obtain ⟨-, hc, hb⟩ := runOps_ts users l2 j1 j2 hI1 h2
  exact ⟨hc, hb⟩

/-- The operation sequence that drives the concrete job to COMPLETED
(with `completedAt` set at tick 5). -/
def c6l1 : List Op :=
  [Op.trans Status.CONFIRMED ⟨1, Role.ADMIN⟩ "" 1,
   Op.assign 10 ⟨1, Role.ADMIN⟩ "" 2,
   Op.trans Status.DISPATCHED ⟨2, Role.OFFICE_MANAGER⟩ "bring part X" 3,
   Op.trans Status.IN_PROGRESS ⟨10, Role.TECHNICIAN⟩ "" 4,
   Op.trans Status.COMPLETED ⟨10, Role.TECHNICIAN⟩ "" 5]

def c6l2 : List Op := [Op.trans Status.BILLED ⟨2, Role.OFFICE_MANAGER⟩ "" 6]

def c6j1 : Job :=
  (runOps c1users (some (createJob c1data 1 0)) c6l1).getD (createJob c1data 1 0)

def c6j2 : Job := (runOps c1users (some c6j1) c6l2).getD c6j1

/-- C6 witness: in the concrete lifecycle `completedAt = some 5` after
reaching COMPLETED and it is still `some 5` after billing. -/
theorem completedAt_billedAt_write_once_witness :
    (∀ x, c6j1.completedAt = some x → c6j2.completedAt = some x) ∧
    (∀ x, c6j1.billedAt = some x → c6j2.billedAt = some x) :=
  completedAt_billedAt_write_once c1users c1data 1 0 c6l1 c6l2 c6j1 c6j2
    (by decide) (by decide)

/-- An edit request that explicitly supplies `completedAt`. -/
def c6edit : EditData := { noEdit with completedAt := some 99 }

/-- C6 counterexample: a detail edit CAN overwrite `completedAt`: on
the concrete COMPLETED job (whose `completedAt` is 5), a PUT carrying
`completedAt: 99` goes through `updateJobDetails` — which strips only
status, statusHistory, assignedTechnician and createdBy — and the
stored `completedAt` becomes 99, refuting "set exactly once, never
overwritten" as stated. -/
theorem detail_edit_overwrites_completedAt :
    c6j1.completedAt = some 5 ∧
    c6j1.status = Status.COMPLETED ∧
    ((updateJobDetails (some c6j1) c6edit).2).map Job.completedAt = some (some 99) := by
  decide

/-- C7 (amended): the reassign route succeeds exactly when the job's
status is ASSIGNED, DISPATCHED or IN_PROGRESS (failing otherwise with
the error naming those statuses); on success it sets the new
technician, resets the status to ASSIGNED and appends a history record
from the job's actual prior status — with no requirement that the new
technician exist in the user directory (the lookup only feeds the
default note's display name). -/
theorem reassign_gate_and_effects (j : Job) (users : UserDir) (tid : Nat) (a : Actor)
    (n : String) (now : Nat) :
    (¬(j.status = Status.ASSIGNED ∨ j.status = Status.DISPATCHED
        ∨ j.status = Status.IN_PROGRESS) →
      reassignRoute (some j) users tid a n now
        = (SvcResult.err ("Cannot reassign a job in " ++ j.status.toStr
            ++ " status. Job must be in ASSIGNED, DISPATCHED, or IN_PROGRESS.") 400,
           some j)) ∧
    ((j.status = Status.ASSIGNED ∨ j.status = Status.DISPATCHED
        ∨ j.status = Status.IN_PROGRESS) →
      ∃ doc e, reassignRoute (some j) users tid a n now = (SvcResult.ok doc, some doc) ∧
        doc.assignedTechnician = some tid ∧ doc.status = Status.ASSIGNED ∧
        doc.statusHistory = j.statusHistory ++ [e] ∧
        e.fromStatus = some j.status ∧ e.toStatus = Status.ASSIGNED) := by
  constructor
  · intro hg
    simp [reassignRoute, reassignPrepare, if_neg hg]
  · intro hg
    cases hp : reassignPrepare j users tid a.id n now with
    | error ec =>
      exfalso
      unfold reassignPrepare at hp
      rw [if_pos hg] at hp
      exact Except.noConfusion hp
    | ok d =>
      have hfacts : d.technicianId = tid ∧ d.entry.fromStatus = some j.status ∧
          d.entry.toStatus = Status.ASSIGNED := by
        unfold reassignPrepare at hp
        rw [if_pos hg] at hp
        cases Except.ok.inj hp
        exact ⟨rfl, rfl, rfl⟩
      obtain ⟨h1, h2, h3⟩ := hfacts
      refine ⟨applyReassignDelta j d, d.entry, ?_, ?_, rfl, rfl, h2, h3⟩
      · simp [reassignRoute, hp, reassignSave]
      · simp [applyReassignDelta, h1]

/-- C7 witness: reassigning the concrete DISPATCHED job to technician
10 succeeds, rewinds the status to ASSIGNED, and the appended record's
`fromStatus` is DISPATCHED. -/
theorem reassign_gate_and_effects_witness :
    ∃ doc e, reassignRoute (some c8job) c1users 10 ⟨1, Role.ADMIN⟩ "" 7
        = (SvcResult.ok doc, some doc) ∧
      doc.assignedTechnician = some 10 ∧ doc.status = Status.ASSIGNED ∧
      doc.statusHistory = c8job.statusHistory ++ [e] ∧
      e.fromStatus = some c8job.status ∧ e.toStatus = Status.ASSIGNED :=
  (reassign_gate_and_effects c8job c1users 10 ⟨1, Role.ADMIN⟩ "" 7).2 (by decide)

/-- C7 counterexample: the new technician is NOT validated to exist:
id 42 is absent from the user directory, yet the reassignment of the
concrete DISPATCHED job succeeds and stores `assignedTechnician = 42`. -/
theorem reassign_missing_technician_counterexample :
    lookupUser c1users 42 = none ∧
    ((reassignRoute (some c8job) c1users 42 ⟨1, Role.ADMIN⟩ "" 7).1).isOk = true ∧
    ((reassignRoute (some c8job) c1users 42 ⟨1, Role.ADMIN⟩ "" 7).2).map
        Job.assignedTechnician = some (some 42) := by
  decide

/-- Shape of a successful reassign preparation: the delta carries the
new technician and one history record whose `fromStatus` is the
snapshot's status and whose `toStatus` is ASSIGNED; and the snapshot
passed the gate. -/
theorem reassignPrepare_ok (j : Job) (users : UserDir) (tid aid : Nat) (n : String)
    (now : Nat) (d : ReassignDelta)
    (h : reassignPrepare j users tid aid n now = Except.ok d) :
    d.technicianId = tid ∧ d.entry.fromStatus = some j.status ∧
    d.entry.toStatus = Status.ASSIGNED ∧
    (j.status = Status.ASSIGNED ∨ j.status = Status.DISPATCHED
      ∨ j.status = Status.IN_PROGRESS) := by
  unfold reassignPrepare at h
  by_cases hg : j.status = Status.ASSIGNED ∨ j.status = Status.DISPATCHED
      ∨ j.status = Status.IN_PROGRESS
  · rw [if_pos hg] at h
    cases Except.ok.inj h
    exact ⟨rfl, rfl, rfl, hg⟩
  · rw [if_neg hg] at h
    exact Except.noConfusion h

/-- A sequential `transitionStatus` can only succeed when the target
differs from the snapshot's status. -/
theorem transitionStatus_ok_target_ne (j jb : Job) (st2 : Option Job) (t : Status)
    (u : Actor) (n : String) (now : Nat)
    (h : transitionStatus (some j) t u n now = (SvcResult.ok jb, st2)) :
    j.status ≠ t := by
  unfold transitionStatus at h
  cases hp : prepareTransition j t u n now with
  | error ec =>
    rcases ec with ⟨e, c⟩
    simp only [hp] at h
    simp at h
  | ok w =>
    obtain ⟨-, -, hne, -, -, -, -, -⟩ := prepareTransition_ok _ _ _ _ _ _ hp
    exact hne

/-- C5 (amended): the reassign write is NOT guarded on status — it is
`job.save()`, an update keyed on the id alone that `$set`s the two
modified scalar paths and `$push`es the one reassign record. When a
concurrent transition lands between the route's read and its save, the
save still commits although the persisted status no longer equals the
status read at the start: the concurrent status change is overwritten
back to ASSIGNED, while the concurrent transition's history record
survives, followed by a reassign record whose `fromStatus` is the
stale snapshot status — no longer the status the job was actually
in at write time. -/
theorem reassign_save_overwrites (j jMid : Job) (d : ReassignDelta) (users : UserDir)
    (tid aid : Nat) (rn : String) (rnow : Nat) (t : Status) (u : Actor) (n : String)
    (now : Nat)
    (hprep : reassignPrepare j users tid aid rn rnow = Except.ok d)
    (htrans : transitionStatus (some j) t u n now = (SvcResult.ok jMid, some jMid)) :
    jMid.status = t ∧
    jMid.statusHistory.length = j.statusHistory.length + 1 ∧
    reassignSave (some jMid) d = some (applyReassignDelta jMid d) ∧
    (applyReassignDelta jMid d).status = Status.ASSIGNED ∧
    (applyReassignDelta jMid d).statusHistory = jMid.statusHistory ++ [d.entry] ∧
    (applyReassignDelta jMid d).statusHistory.length = j.statusHistory.length + 2 ∧
    d.entry.fromStatus = some j.status ∧
    some jMid.status ≠ d.entry.fromStatus := by
  obtain ⟨-, hmt, e2, hmh, -, -⟩ := transitionStatus_ok_step j jMid _ t u n now htrans
  obtain ⟨-, hef, -, -⟩ := reassignPrepare_ok j users tid aid rn rnow d hprep
  have hne := transitionStatus_ok_target_ne j jMid _ t u n now htrans
  have hmlen : jMid.statusHistory.length = j.statusHistory.length + 1 := by
    rw [hmh]; simp
  refine ⟨hmt, hmlen, rfl, rfl, rfl, ?_, hef, ?_⟩
  · show (jMid.statusHistory ++ [d.entry]).length = j.statusHistory.length + 2
    rw [List.length_append, hmlen]
    rfl
  · rw [hmt, hef]
    intro hc
    exact hne (Option.some.inj hc).symm

/-- The delta the reassign route prepares from the DISPATCHED snapshot
before the racing write lands. -/
def c5delta : ReassignDelta :=
  match reassignPrepare c8job c1users 11 1 "" 4 with
  | Except.ok d => d
  | Except.error _ =>
    { technicianId := 0
      entry := { fromStatus := none, toStatus := Status.ASSIGNED, changedBy := 0,
                 changedAt := 0, notes := "" } }

/-- The store after the concurrent DISPATCHED → IN_PROGRESS transition
by the assigned technician. -/
def c5mid : Option Job :=
  (transitionStatus (some c8job) Status.IN_PROGRESS ⟨10, Role.TECHNICIAN⟩ "" 5).2

def c5midJob : Job := c5mid.getD c8job

/-- C5 counterexample: the reassignment write does NOT use the
conditional-write discipline. The route reads the job at DISPATCHED; a
concurrent transition moves it to IN_PROGRESS (appending its history
record); the reassign save then still commits — although the persisted
status no longer equals the status read at the start — and overwrites
the concurrent status change back to ASSIGNED. The concurrent
IN_PROGRESS history record survives the `$push`-based save; only the
status change is silently undone. -/
theorem reassign_no_conditional_write_counterexample :
    reassignPrepare c8job c1users 11 1 "" 4 = Except.ok c5delta ∧
    c8job.status = Status.DISPATCHED ∧
    c5mid.map Job.status = some Status.IN_PROGRESS ∧
    reassignSave c5mid c5delta ≠ c5mid ∧
    (reassignSave c5mid c5delta).map Job.status = some Status.ASSIGNED ∧
    (reassignSave c5mid c5delta).map
        (fun jj => jj.statusHistory.any (fun e => decide (e.toStatus = Status.IN_PROGRESS)))
      = some true ∧
    (reassignSave c5mid c5delta).map (fun jj => jj.statusHistory.length)
      = some (c8job.statusHistory.length + 2) := by
  decide

/-- C5 witness: the amended overwrite theorem at the same concrete
race. -/
theorem reassign_save_overwrites_witness :
    c5midJob.status = Status.IN_PROGRESS ∧
    c5midJob.statusHistory.length = c8job.statusHistory.length + 1 ∧
    reassignSave (some c5midJob) c5delta = some (applyReassignDelta c5midJob c5delta) ∧
    (applyReassignDelta c5midJob c5delta).status = Status.ASSIGNED ∧
    (applyReassignDelta c5midJob c5delta).statusHistory
        = c5midJob.statusHistory ++ [c5delta.entry] ∧
    (applyReassignDelta c5midJob c5delta).statusHistory.length
        = c8job.statusHistory.length + 2 ∧
    c5delta.entry.fromStatus = some c8job.status ∧
    some c5midJob.status ≠ c5delta.entry.fromStatus :=
  reassign_save_overwrites c8job c5midJob c5delta c1users 11 1 "" 4 Status.IN_PROGRESS
    ⟨10, Role.TECHNICIAN⟩ "" 5 (by decide) (by decide)
